import Mathlib

/-!
Verification of the FadeMem memory-lifecycle engine.

Shallow embedding of the core lifecycle and scoring logic:
decay model (`engram/core/decay.py`), conflict resolver
(`engram/core/conflict.py`), fusion engine (`fadem/core/fusion.py`),
echo depth multipliers (`fadem/core/echo.py`), scope validation
(`fadem/memory/utils.py`), the orchestrating `add`/`get` slices of
`fadem/memory/main.py` over the SQLite record store
(`engram/db/sqlite.py`), and the category merge/decay logic
(`engram/core/category.py`).

Strengths, similarities and decay arithmetic are Python floats in the
source; they are embedded as real numbers.  Record and category stores
are embedded as partial maps from string identifiers.
-/

namespace FadeMem

/-! ## Configuration (`fadem/configs/base.py`) -/

/-- `FadeMemConfig` from `fadem/configs/base.py`. -/
structure FadeMemConfig where
  enable_forgetting : Bool
  sml_decay_rate : ℝ
  lml_decay_rate : ℝ
  access_dampening_factor : ℝ
  promotion_access_threshold : ℕ
  promotion_strength_threshold : ℝ
  forgetting_threshold : ℝ
  conflict_similarity_threshold : ℝ
  fusion_similarity_threshold : ℝ
  enable_fusion : Bool
  use_tombstone_deletion : Bool

/-- The default field values of `FadeMemConfig`. -/
def defaultFadeMemConfig : FadeMemConfig where
  enable_forgetting := true
  sml_decay_rate := 0.15
  lml_decay_rate := 0.02
  access_dampening_factor := 0.5
  promotion_access_threshold := 3
  promotion_strength_threshold := 0.7
  forgetting_threshold := 0.1
  conflict_similarity_threshold := 0.85
  fusion_similarity_threshold := 0.90
  enable_fusion := true
  use_tombstone_deletion := true

/-! ## Decay model (`engram/core/decay.py`) -/

/-- `max(0.0, min(1.0, x))`, the clamp used at the end of
`calculate_decayed_strength`. -/
def clamp01 (x : ℝ) : ℝ := max 0 (min 1 x)

/-- `calculate_decayed_strength` from `engram/core/decay.py`.  The
elapsed time `(datetime.utcnow() - last_accessed).total_seconds() / 86400.0`
is taken as the input `time_elapsed_days`. -/
noncomputable def calculate_decayed_strength (current_strength : ℝ)
    (time_elapsed_days : ℝ) (access_count : ℕ) (layer : String)
    (config : FadeMemConfig) : ℝ :=
  let decay_rate := if layer = "sml" then config.sml_decay_rate else config.lml_decay_rate
  let access_dampening := 1 + config.access_dampening_factor * Real.log (1 + (access_count : ℝ))
  let new_strength := current_strength * Real.exp (-decay_rate * time_elapsed_days / access_dampening)
  clamp01 new_strength

/-- Modelled from the spec: `strength' = clamp(current · exp(−rate·elapsed_days
/ dampening), 0, 1)` with `rate = tier==SHORT ? rate_short : rate_long` and
`dampening = 1 + k·ln(1+access_count)` (spec §4.1); stated over the same
configuration record, to be compared with `calculate_decayed_strength`. -/
noncomputable def spec_decayed_strength (current : ℝ) (elapsed_days : ℝ)
    (access_count : ℕ) (tier : String) (config : FadeMemConfig) : ℝ :=
  let rate := if tier = "sml" then config.sml_decay_rate else config.lml_decay_rate
  let dampening := 1 + config.access_dampening_factor * Real.log (1 + (access_count : ℝ))
  max 0 (min 1 (current * Real.exp (-(rate * elapsed_days) / dampening)))

/-! ## Echo depth (`fadem/core/echo.py`) -/

/-- `EchoDepth` enumeration from `fadem/core/echo.py`. -/
inductive EchoDepth where
  | shallow
  | medium
  | deep
deriving DecidableEq

/-- `EchoProcessor.STRENGTH_MULTIPLIERS` from `fadem/core/echo.py`. -/
noncomputable def STRENGTH_MULTIPLIERS : EchoDepth → ℝ
  | EchoDepth.shallow => 1.0
  | EchoDepth.medium => 1.3
  | EchoDepth.deep => 1.6

/-- The depth chosen by `EchoProcessor._assess_depth` from its counted
signals: `signals >= 3` gives deep, `signals >= 1` gives medium, else
shallow. -/
def assessDepthFromSignals (signals : ℕ) : EchoDepth :=
  if 3 ≤ signals then EchoDepth.deep
  else if 1 ≤ signals then EchoDepth.medium
  else EchoDepth.shallow

/-! ## Memory records and the durable store (`engram/db/sqlite.py`) -/

/-- A row of the `memories` table in `engram/db/sqlite.py`; timestamps are
abstracted as naturals. -/
structure MemRecord where
  id : String
  memory : String
  user_id : Option String
  agent_id : Option String
  run_id : Option String
  app_id : Option String
  metadata : List (String × String)
  categories : List String
  immutable : Bool
  expiration_date : Option String
  created_at : ℕ
  updated_at : ℕ
  layer : String
  strength : ℝ
  access_count : ℕ
  last_accessed : ℕ
  embedding : List ℝ
  tombstone : Bool

/-- The durable store, keyed by memory id. -/
def DB : Type := String → Option MemRecord

/-- `SQLiteManager.get_memory` with the default
`include_tombstoned=False`: tombstoned rows are excluded. -/
def get_memory (db : DB) (memory_id : String) : Option MemRecord :=
  match db memory_id with
  | some r => if r.tombstone then none else some r
  | none => none

/-- `SQLiteManager.increment_access`: bump `access_count` and set
`last_accessed` to now; no other column is touched. -/
def increment_access (db : DB) (now : ℕ) (memory_id : String) : DB :=
  fun j =>
    if j = memory_id then
      (db j).map (fun r => { r with access_count := r.access_count + 1, last_accessed := now })
    else db j

/-- `SQLiteManager.update_memory` restricted to a strength update; it also
sets `updated_at`. -/
def db_update_strength (db : DB) (now : ℕ) (memory_id : String) (s : ℝ) : DB :=
  fun j =>
    if j = memory_id then
      (db j).map (fun r => { r with strength := s, updated_at := now })
    else db j

/-- `SQLiteManager.delete_memory`: tombstone (through `update_memory`,
which also stamps `updated_at`) or physical delete. -/
def db_delete (db : DB) (now : ℕ) (memory_id : String) (use_tombstone : Bool) : DB :=
  if use_tombstone then
    fun j =>
      if j = memory_id then
        (db j).map (fun r => { r with tombstone := true, updated_at := now })
      else db j
  else fun j => if j = memory_id then none else db j

/-- `Memory.get` from `fadem/memory/main.py`: fetch the record, and if it
exists bump its access statistics; returns the fetched (pre-bump) record
together with the resulting store. -/
def memoryGet (db : DB) (now : ℕ) (memory_id : String) : Option MemRecord × DB :=
  match get_memory db memory_id with
  | some r => (some r, increment_access db now memory_id)
  | none => (none, db)

/-! ## Conflict resolution (`engram/core/conflict.py`) -/

/-- The `ConflictResolution` dataclass. -/
structure ConflictResolution where
  classification : String
  confidence : ℝ
  merged_content : Option String
  explanation : String

/-- The fields the expected JSON response may carry; a `none` field was
absent, so the `.get` default applies. -/
structure ConflictData where
  classification : Option String
  confidence : Option ℝ
  merged_content : Option String
  explanation : Option String

/-- The prompt built from the existing memory and the new content
(template wording abstracted). -/
def buildConflictPrompt (existing_memory : String) (new_memory : String) : String :=
  "EXISTING MEMORY: " ++ existing_memory ++ " NEW MEMORY: " ++ new_memory

/-- `resolve_conflict` from `engram/core/conflict.py`.  `generate` is the
external language model (`.error` means the call raised) and `parseJson`
is `json.loads` plus field coercion (`none` means the output could not be
parsed as the expected JSON, including a non-numeric confidence). -/
noncomputable def resolve_conflict (existing_memory new_content : String)
    (generate : String → Except Unit String)
    (parseJson : String → Option ConflictData) : ConflictResolution :=
  match generate (buildConflictPrompt existing_memory new_content) with
  | Except.error _ => ⟨"COMPATIBLE", 0.5, none, "Failed to parse LLM response"⟩
  | Except.ok response =>
    match parseJson response.trim with
    | none => ⟨"COMPATIBLE", 0.5, none, "Failed to parse LLM response"⟩
    | some data =>
      ⟨data.classification.getD "COMPATIBLE", data.confidence.getD 0.5,
       data.merged_content, data.explanation.getD ""⟩

/-! ## Fusion (`fadem/core/fusion.py`) -/

/-- The `FusedMemory` dataclass. -/
structure FusedMemory where
  content : String
  strength : ℝ
  access_count : ℕ
  source_ids : List String
  layer : String

/-- `fuse_memories` from `fadem/core/fusion.py`.  `llmConsolidated` is the
parsed `consolidated_memory` of the language-model response (`none` means
the call failed or its output was unparseable, in which case the sources
are concatenated verbatim). -/
noncomputable def fuse_memories (memories : List MemRecord)
    (llmConsolidated : Option String) : FusedMemory :=
  let fused_content :=
    match llmConsolidated with
    | some s => s
    | none => String.intercalate " | " (memories.map (fun m => m.memory))
  let avg_strength := (memories.map (fun m => m.strength)).sum / (memories.length : ℝ)
  let total_access := (memories.map (fun m => m.access_count)).sum
  { content := fused_content
    strength := min 1 (avg_strength * 1.2)
    access_count := total_access
    source_ids := memories.map (fun m => m.id)
    layer := "lml" }

/-! ## Scope validation (`fadem/memory/utils.py`) -/

/-- Python truthiness of an optional string: `None` and `""` are falsy. -/
def pyTruthy : Option String → Bool
  | none => false
  | some s => !(s == "")

/-- Dictionary update `d[k] = v` on an association list. -/
def dictSet (d : List (String × String)) (k v : String) : List (String × String) :=
  (d.filter (fun kv => kv.1 ≠ k)) ++ [(k, v)]

/-- Dictionary lookup `d.get(k)`. -/
def dictGet (d : List (String × String)) (k : String) : Option String :=
  (d.find? (fun kv => kv.1 = k)).map (fun kv => kv.2)

/-- The pair returned by `build_filters_and_metadata`. -/
structure BFMOut where
  metadata : List (String × String)
  filters : List (String × String)

/-- `build_filters_and_metadata` from `fadem/memory/utils.py`.  Note that
it only consults `user_id`, `agent_id` and `run_id`; it has no `app_id`
parameter at all. -/
def build_filters_and_metadata (user_id agent_id run_id actor_id : Option String)
    (input_metadata input_filters : List (String × String)) :
    Except String BFMOut :=
  let acc0 := (input_metadata, input_filters, ([] : List String))
  let acc1 :=
    if pyTruthy user_id then
      (dictSet acc0.1 "user_id" (user_id.getD ""),
       dictSet acc0.2.1 "user_id" (user_id.getD ""), acc0.2.2 ++ ["user_id"])
    else acc0
  let acc2 :=
    if pyTruthy agent_id then
      (dictSet acc1.1 "agent_id" (agent_id.getD ""),
       dictSet acc1.2.1 "agent_id" (agent_id.getD ""), acc1.2.2 ++ ["agent_id"])
    else acc1
  let acc3 :=
    if pyTruthy run_id then
      (dictSet acc2.1 "run_id" (run_id.getD ""),
       dictSet acc2.2.1 "run_id" (run_id.getD ""), acc2.2.2 ++ ["run_id"])
    else acc2
  if acc3.2.2.isEmpty then
    Except.error "VALIDATION_001"
  else
    let resolved_actor := if pyTruthy actor_id then actor_id else dictGet acc3.2.1 "actor_id"
    let filters :=
      match resolved_actor with
      | some a => if a = "" then acc3.2.1 else dictSet acc3.2.1 "actor_id" a
      | none => acc3.2.1
    Except.ok ⟨acc3.1, filters⟩

/-! ## The `add` pipeline (`fadem/memory/main.py`) -/

/-- One entry of the `results` list returned by `Memory.add`. -/
structure AddResult where
  id : String
  memory : String
  event : String
  layer : String
  strength : ℝ
  echo_depth : Option EchoDepth

/-- Python `x or y` for an optional string (`None` and `""` are falsy). -/
def pyOrString (a : Option String) (b : String) : String :=
  match a with
  | some s => if s = "" then b else s
  | none => b

/-- The per-memory body of `Memory.add` for a single extracted memory:
scope validation, echo strength multiplier, conflict check against the
nearest neighbour, and insertion.  External collaborators are inputs:
`nearest` is the vector-index hit `(id, similarity)` and `resolution` the
conflict classification obtained from the language model.  `freshId` is
the generated uuid and `now` the current time. -/
noncomputable def addOne (cfg : FadeMemConfig) (echoEnabled : Bool) (depth : EchoDepth)
    (db : DB) (now : ℕ) (freshId : String)
    (user_id agent_id run_id app_id : Option String)
    (content : String) (nearest : Option (String × ℝ))
    (resolution : ConflictResolution)
    (initial_layer : String) (initial_strength : ℝ) :
    Except String (DB × AddResult) :=
  match build_filters_and_metadata user_id agent_id run_id none [] [] with
  | Except.error e => Except.error e
  | Except.ok _ =>
    let effective_strength :=
      if echoEnabled then initial_strength * STRENGTH_MULTIPLIERS depth
      else initial_strength
    let layer := if initial_layer = "auto" then "sml" else initial_layer
    let echoDepthOut : Option EchoDepth := if echoEnabled then some depth else none
    let insertNew : DB → String → String → DB × AddResult := fun db₁ content₁ event =>
      let rec1 : MemRecord :=
        { id := freshId, memory := content₁, user_id := user_id, agent_id := agent_id
          run_id := run_id, app_id := app_id, metadata := [], categories := []
          immutable := false, expiration_date := none, created_at := now
          updated_at := now, layer := layer, strength := effective_strength
          access_count := 0, last_accessed := now, embedding := [], tombstone := false }
      (fun j => if j = freshId then some rec1 else db₁ j,
       { id := freshId, memory := content₁, event := event, layer := layer
         strength := effective_strength, echo_depth := echoDepthOut })
    let existing : Option MemRecord :=
      match nearest with
      | some (nid, score) =>
        if cfg.conflict_similarity_threshold ≤ score then get_memory db nid else none
      | none => none
    match existing with
    | some ex =>
      if cfg.enable_forgetting then
        if resolution.classification = "CONTRADICTORY" then
          Except.ok (insertNew (db_delete db now ex.id cfg.use_tombstone_deletion) content "UPDATE")
        else if resolution.classification = "SUBSUMES" then
          Except.ok (insertNew (db_delete db now ex.id cfg.use_tombstone_deletion)
            (pyOrString resolution.merged_content content) "UPDATE")
        else if resolution.classification = "SUBSUMED" then
          let boosted := min 1 (ex.strength + 0.05)
          let db₁ := db_update_strength db now ex.id boosted
          let db₂ := increment_access db₁ now ex.id
          Except.ok (db₂,
            { id := ex.id, memory := ex.memory, event := "NOOP", layer := ex.layer
              strength := boosted, echo_depth := none })
        else Except.ok (insertNew db content "ADD")
      else Except.ok (insertNew db content "ADD")
    | none => Except.ok (insertNew db content "ADD")

/-- The strength `add` computes before persisting: the echo multiplier
applied to `initial_strength` (main.py line 138), unclamped. -/
noncomputable def addEffectiveStrength (initial_strength : ℝ) (echoEnabled : Bool)
    (depth : EchoDepth) : ℝ :=
  if echoEnabled then initial_strength * STRENGTH_MULTIPLIERS depth else initial_strength

/-- The strength boost applied to the surviving memory on a SUBSUMED
classification (main.py line 170). -/
noncomputable def subsumedBoost (s : ℝ) : ℝ := min 1 (s + 0.05)

/-- The strength boost applied by `_reecho_memory` (main.py line 373). -/
noncomputable def reechoStrength (s : ℝ) : ℝ := min 1 (s * 1.1)

/-- The strength stored under `memory_id` in the store produced by an
`addOne` run (for inspecting the persisted outcome). -/
noncomputable def persistedStrength (r : Except String (DB × AddResult))
    (memory_id : String) : Option ℝ :=
  match r with
  | Except.ok (db, _) => (db memory_id).map (fun rec1 => rec1.strength)
  | Except.error _ => none

/-! ## Categories (`engram/core/category.py`) -/

/-- `CategoryType` enumeration. -/
inductive CategoryType where
  | preference
  | fact
  | context
  | procedure
  | correction
  | dynamic
deriving DecidableEq

/-- The `Category` dataclass (fields not touched by the merge/decay logic
are omitted). -/
structure Category where
  id : String
  name : String
  description : String
  category_type : CategoryType
  parent_id : Option String
  children_ids : List String
  memory_count : ℕ
  total_strength : ℝ
  access_count : ℕ
  keywords : List String
  embedding : List ℝ
  summary : Option String
  strength : ℝ

/-- The in-memory category cache `self.categories`, keyed by id. -/
def CatStore : Type := String → Option Category

/-- In-place mutation of one stored category. -/
def updateCat (st : CatStore) (category_id : String) (f : Category → Category) : CatStore :=
  fun j => if j = category_id then (st j).map f else st j

/-- One iteration of the child re-parenting loop in
`CategoryProcessor._merge_categories`: children absent from the store are
skipped, present ones get `parent_id = target_id` and are appended to the
target children list. -/
def reparentStep (target_id : String) (st : CatStore) (child_id : String) : CatStore :=
  if (st child_id).isSome then
    updateCat (updateCat st child_id (fun k => { k with parent_id := some target_id }))
      target_id (fun t => { t with children_ids := t.children_ids ++ [child_id] })
  else st

/-- The stat transfer applied to the target in
`CategoryProcessor._merge_categories`: member counts, combined strength
and access counts are summed and the keyword union is deduplicated
(`list(set(target.keywords + source.keywords))`). -/
def mergeStatsFn (source : Category) : Category → Category := fun t =>
  { t with memory_count := t.memory_count + source.memory_count
           total_strength := t.total_strength + source.total_strength
           access_count := t.access_count + source.access_count
           keywords := (t.keywords ++ source.keywords).dedup }

/-- `target.summary = None` in `CategoryProcessor._merge_categories`. -/
def clearSummaryFn : Category → Category := fun t => { t with summary := none }

/-- `CategoryProcessor._merge_categories`: transfer stats, merge keywords
deduplicated, re-parent children, invalidate the summary, delete the
source.  A missing source or target makes it a no-op. -/
def mergeCategories (st : CatStore) (source_id target_id : String) : CatStore :=
  match st source_id, st target_id with
  | some source, some _ =>
    let st1 := updateCat st target_id (mergeStatsFn source)
    let st2 := source.children_ids.foldl (reparentStep target_id) st1
    let st3 := updateCat st2 target_id clearSummaryFn
    fun j => if j = source_id then none else st3 j
  | _, _ => st

/-- `sum(a * b for a, b in zip(vec1, vec2))`. -/
def dotProduct (v w : List ℝ) : ℝ := (List.zipWith (fun a b => a * b) v w).sum

/-- `sum(a * a for a in vec)`. -/
def sumSquares (v : List ℝ) : ℝ := (v.map (fun a => a * a)).sum

/-- `CategoryProcessor._cosine_similarity`: zero for empty or
length-mismatched vectors and for zero norms, otherwise the normalized dot
product (`** 0.5` is the square root). -/
noncomputable def cosine_similarity (vec1 vec2 : List ℝ) : ℝ :=
  if vec1 = [] ∨ vec2 = [] ∨ vec1.length ≠ vec2.length then 0
  else
    let norm1 := Real.sqrt (sumSquares vec1)
    let norm2 := Real.sqrt (sumSquares vec2)
    if norm1 = 0 ∨ norm2 = 0 then 0
    else dotProduct vec1 vec2 / (norm1 * norm2)

/-- `len(set(kw1) & set(kw2))`. -/
def kwOverlap (kw1 kw2 : List String) : ℕ :=
  (kw1.dedup.filter (fun k => k ∈ kw2)).length

open Classical in
/-- The loop body of `CategoryProcessor._find_merge_target`: skip the weak
category itself and weak dynamic candidates; an embedding-similar
candidate (`sim > best` and `sim > 0.7`) becomes the best together with
its similarity; a candidate sharing at least two keywords replaces the
best (without touching the recorded best similarity) when there is no best
yet or its overlap ratio exceeds the recorded best similarity. -/
noncomputable def mergeStep (weak : Category) (acc : Option Category × ℝ)
    (cat : Category) : Option Category × ℝ :=
  if cat.id = weak.id then acc
  else if cat.category_type = CategoryType.dynamic ∧ cat.strength < 0.5 then acc
  else
    let acc1 :=
      if weak.embedding ≠ [] ∧ cat.embedding ≠ [] then
        let sim := cosine_similarity weak.embedding cat.embedding
        if sim > acc.2 ∧ sim > 0.7 then (some cat, sim) else acc
      else acc
    if weak.keywords ≠ [] ∧ cat.keywords ≠ [] then
      let overlap := kwOverlap weak.keywords cat.keywords
      if 2 ≤ overlap ∧ (acc1.1 = none ∨ (overlap : ℝ) / (weak.keywords.length : ℝ) > acc1.2) then
        (some cat, acc1.2)
      else acc1
    else acc1

/-- `CategoryProcessor._find_merge_target`: fold the loop body over the
stored categories in order, starting from no target and similarity `0.0`. -/
noncomputable def find_merge_target (weak : Category) (cats : List Category) :
    Option Category :=
  (cats.foldl (mergeStep weak) (none, 0)).1

/-- A candidate the `_find_merge_target` loop does not skip: not the weak
category itself, and not a weak dynamic category. -/
def mergeEligible (weak cat : Category) : Prop :=
  cat.id ≠ weak.id ∧ ¬(cat.category_type = CategoryType.dynamic ∧ cat.strength < 0.5)

/-- A candidate that fires the keyword-overlap branch of the loop. -/
def kwTriggers (weak cat : Category) : Prop :=
  weak.keywords ≠ [] ∧ cat.keywords ≠ [] ∧ 2 ≤ kwOverlap weak.keywords cat.keywords

/-! ## Concrete instances used by witnesses and counterexamples -/

/-- A sample stored record. -/
noncomputable def sampleRec : MemRecord where
  id := "m1"
  memory := "User prefers TypeScript"
  user_id := some "u1"
  agent_id := none
  run_id := none
  app_id := none
  metadata := []
  categories := []
  immutable := false
  expiration_date := none
  created_at := 5
  updated_at := 5
  layer := "sml"
  strength := 0.8
  access_count := 2
  last_accessed := 5
  embedding := []
  tombstone := false

/-- A store holding only `sampleRec`. -/
noncomputable def sampleDB : DB :=
  fun j => if j = "m1" then some sampleRec else none

/-- The empty store. -/
def emptyDB : DB := fun _ => none

/-- A SUBSUMED classification as returned by the conflict resolver. -/
noncomputable def subsumedRes : ConflictResolution where
  classification := "SUBSUMED"
  confidence := 0.9
  merged_content := none
  explanation := ""

/-- A COMPATIBLE classification as returned by the conflict resolver. -/
noncomputable def compatRes : ConflictResolution where
  classification := "COMPATIBLE"
  confidence := 0.5
  merged_content := none
  explanation := ""

/-- Three sample fusion sources with strengths `0.9, 0.5, 0.2` and access
counts `10, 2, 0`. -/
noncomputable def fuseSources : List MemRecord :=
  [{ sampleRec with id := "f1", strength := 0.9, access_count := 10 },
   { sampleRec with id := "f2", strength := 0.5, access_count := 2 },
   { sampleRec with id := "f3", strength := 0.2, access_count := 0 }]

/-- A sample weak dynamic category (strength `0.2`, no members). -/
noncomputable def weakCat : Category where
  id := "w"
  name := "weak"
  description := "a weak topic"
  category_type := CategoryType.dynamic
  parent_id := none
  children_ids := []
  memory_count := 0
  total_strength := 0
  access_count := 0
  keywords := ["alpha", "beta"]
  embedding := [3, 4]
  summary := none
  strength := 0.2

/-- An embedding-similar merge candidate: cosine similarity with
`weakCat` is `24/25 = 0.96`, no keywords. -/
noncomputable def embCand : Category where
  id := "a"
  name := "emb"
  description := "embedding-similar topic"
  category_type := CategoryType.dynamic
  parent_id := none
  children_ids := []
  memory_count := 5
  total_strength := 3
  access_count := 4
  keywords := []
  embedding := [4, 3]
  summary := none
  strength := 0.9

/-- A keyword-overlap merge candidate: shares both keywords with
`weakCat`, no embedding. -/
noncomputable def kwCand : Category where
  id := "b"
  name := "kw"
  description := "keyword-overlap topic"
  category_type := CategoryType.dynamic
  parent_id := none
  children_ids := []
  memory_count := 4
  total_strength := 2
  access_count := 1
  keywords := ["alpha", "beta"]
  embedding := []
  summary := none
  strength := 0.9

/-- A sample merge source category with one child. -/
noncomputable def srcCat : Category where
  id := "s"
  name := "source"
  description := "source topic"
  category_type := CategoryType.dynamic
  parent_id := none
  children_ids := ["c"]
  memory_count := 2
  total_strength := 0.7
  access_count := 3
  keywords := ["alpha", "gamma"]
  embedding := []
  summary := some "old source summary"
  strength := 0.2

/-- A sample merge target category. -/
noncomputable def tgtCat : Category where
  id := "t"
  name := "target"
  description := "target topic"
  category_type := CategoryType.preference
  parent_id := none
  children_ids := []
  memory_count := 7
  total_strength := 4.2
  access_count := 11
  keywords := ["alpha", "delta"]
  embedding := []
  summary := some "old target summary"
  strength := 0.8

/-- A sample child of `srcCat`. -/
noncomputable def childCat : Category where
  id := "c"
  name := "child"
  description := "child topic"
  category_type := CategoryType.dynamic
  parent_id := some "s"
  children_ids := []
  memory_count := 1
  total_strength := 0.4
  access_count := 2
  keywords := []
  embedding := []
  summary := none
  strength := 0.6

/-- A category store holding `srcCat`, `tgtCat` and `childCat`. -/
noncomputable def sampleCatStore : CatStore :=
  fun j =>
    if j = "s" then some srcCat
    else if j = "t" then some tgtCat
    else if j = "c" then some childCat
    else none

/-! ## Helper lemmas -/

lemma clamp01_mono {x y : ℝ} (h : x ≤ y) : clamp01 x ≤ clamp01 y :=
  max_le_max le_rfl (min_le_min le_rfl h)

lemma clamp01_nonneg (x : ℝ) : 0 ≤ clamp01 x := le_max_left 0 _

lemma clamp01_le_one (x : ℝ) : clamp01 x ≤ 1 :=
  max_le zero_le_one (min_le_left 1 x)

/-- The access dampening term is at least `1` when the dampening factor is
nonnegative. -/
lemma one_le_dampening (k : ℝ) (hk : 0 ≤ k) (n : ℕ) :
    1 ≤ 1 + k * Real.log (1 + (n : ℝ)) := by
  have hlog : 0 ≤ Real.log (1 + (n : ℝ)) :=
    Real.log_nonneg (by linarith [Nat.cast_nonneg (α := ℝ) n])
  nlinarith

lemma dampening_pos (k : ℝ) (hk : 0 ≤ k) (n : ℕ) :
    0 < 1 + k * Real.log (1 + (n : ℝ)) :=
  lt_of_lt_of_le one_pos (one_le_dampening k hk n)

lemma dampening_mono (k : ℝ) (hk : 0 ≤ k) {n₁ n₂ : ℕ} (h : n₁ ≤ n₂) :
    1 + k * Real.log (1 + (n₁ : ℝ)) ≤ 1 + k * Real.log (1 + (n₂ : ℝ)) := by
  have hlog : Real.log (1 + (n₁ : ℝ)) ≤ Real.log (1 + (n₂ : ℝ)) := by
    apply Real.log_le_log (by positivity)
    have : (n₁ : ℝ) ≤ (n₂ : ℝ) := Nat.cast_le.mpr h
    linarith
  nlinarith

lemma decay_rate_nonneg (config : FadeMemConfig) (layer : String)
    (h1 : 0 ≤ config.sml_decay_rate) (h2 : 0 ≤ config.lml_decay_rate) :
    0 ≤ if layer = "sml" then config.sml_decay_rate else config.lml_decay_rate := by
  by_cases h : layer = "sml" <;> simp [h, h1, h2]

/-! ## Claim C2 -/

/-- Claim C2: for every current strength in `[0,1]`, every tier, every
access count and fixed (nonnegative) decay parameters, the decayed
strength is non-increasing as the elapsed time since last access
increases, and for fixed elapsed time `≥ 0` it is non-decreasing as the
access count increases. -/
theorem C2_decay_monotonicity (config : FadeMemConfig)
    (hrs : 0 ≤ config.sml_decay_rate) (hrl : 0 ≤ config.lml_decay_rate)
    (hk : 0 ≤ config.access_dampening_factor)
    (s : ℝ) (hs0 : 0 ≤ s) (hs1 : s ≤ 1) (layer : String) :
    (∀ e₁ e₂ : ℝ, 0 ≤ e₁ → e₁ ≤ e₂ → ∀ n : ℕ,
      calculate_decayed_strength s e₂ n layer config ≤
        calculate_decayed_strength s e₁ n layer config) ∧
    (∀ e : ℝ, 0 ≤ e → ∀ n₁ n₂ : ℕ, n₁ ≤ n₂ →
      calculate_decayed_strength s e n₁ layer config ≤
        calculate_decayed_strength s e n₂ layer config) := by
  have hrate : 0 ≤ if layer = "sml" then config.sml_decay_rate else config.lml_decay_rate :=
    decay_rate_nonneg config layer hrs hrl
  set rate := if layer = "sml" then config.sml_decay_rate else config.lml_decay_rate with hrdef
  constructor
  · intro e₁ e₂ he₁ h12 n
    unfold calculate_decayed_strength
    rw [← hrdef]
    apply clamp01_mono
    apply mul_le_mul_of_nonneg_left _ hs0
    apply Real.exp_le_exp.mpr
    have hd : 0 < 1 + config.access_dampening_factor * Real.log (1 + (n : ℝ)) :=
      dampening_pos _ hk n
    rw [div_le_div_iff₀ hd hd]
    nlinarith [mul_nonneg (mul_nonneg hrate (sub_nonneg.mpr h12)) hd.le]
  · intro e he n₁ n₂ hn
    unfold calculate_decayed_strength
    rw [← hrdef]
    apply clamp01_mono
    apply mul_le_mul_of_nonneg_left _ hs0
    apply Real.exp_le_exp.mpr
    have hd₁ : 0 < 1 + config.access_dampening_factor * Real.log (1 + (n₁ : ℝ)) :=
      dampening_pos _ hk n₁
    have hd₂ : 0 < 1 + config.access_dampening_factor * Real.log (1 + (n₂ : ℝ)) :=
      dampening_pos _ hk n₂
    have hdm := dampening_mono config.access_dampening_factor hk hn
    rw [div_le_div_iff₀ hd₁ hd₂]
    have hx : 0 ≤ rate * e := mul_nonneg hrate he
    nlinarith

/-- Witness for C2 at the default configuration, strength `1/2`, tier
`"sml"`, elapsed times `1 ≤ 2` and access count `0`. -/
theorem C2_decay_monotonicity_witness :
    ((0:ℝ) ≤ defaultFadeMemConfig.sml_decay_rate ∧
     (0:ℝ) ≤ defaultFadeMemConfig.lml_decay_rate ∧
     (0:ℝ) ≤ defaultFadeMemConfig.access_dampening_factor ∧
     (0:ℝ) ≤ (1/2 : ℝ) ∧ (1/2 : ℝ) ≤ 1 ∧ (0:ℝ) ≤ (1:ℝ) ∧ (1:ℝ) ≤ (2:ℝ)) ∧
    calculate_decayed_strength (1/2) 2 0 "sml" defaultFadeMemConfig ≤
      calculate_decayed_strength (1/2) 1 0 "sml" defaultFadeMemConfig :=
  ⟨⟨by norm_num [defaultFadeMemConfig], by norm_num [defaultFadeMemConfig],
    by norm_num [defaultFadeMemConfig], by norm_num, by norm_num, by norm_num, by norm_num⟩,
   (C2_decay_monotonicity defaultFadeMemConfig
      (by norm_num [defaultFadeMemConfig]) (by norm_num [defaultFadeMemConfig])
      (by norm_num [defaultFadeMemConfig]) (1/2) (by norm_num) (by norm_num) "sml").1
     1 2 (by norm_num) (by norm_num) 0⟩

/-! ## Claim C3 -/

/-- Claim C3: `calculate_decayed_strength` returns exactly
`clamp(current * exp(-rate * elapsed_days / dampening), 0, 1)` with the
short-tier rate used exactly when the tier is `"sml"` and
`dampening = 1 + k * ln(1 + access_count)`, and under the default
parameters the short-tier rate is larger than the long-tier rate. -/
theorem C3_decay_formula_refinement :
    (∀ (s e : ℝ) (n : ℕ) (layer : String) (config : FadeMemConfig),
      calculate_decayed_strength s e n layer config =
        spec_decayed_strength s e n layer config) ∧
    defaultFadeMemConfig.lml_decay_rate < defaultFadeMemConfig.sml_decay_rate := by
  constructor
  · intro s e n layer config
    simp only [calculate_decayed_strength, spec_decayed_strength, clamp01, neg_mul]
  · norm_num [defaultFadeMemConfig]

/-! ## Claim C10 -/

/-- Claim C10: `get` on an existing, non-tombstoned memory id returns the
record but also increments its `access_count` by one and sets
`last_accessed` to the current time, leaving every other field of the
record and all other records unchanged. -/
theorem C10_get_not_pure (db : DB) (now : ℕ) (memory_id : String) (r : MemRecord)
    (hdb : db memory_id = some r) (ht : r.tombstone = false) :
    (memoryGet db now memory_id).1 = some r ∧
    (memoryGet db now memory_id).2 memory_id =
      some { r with access_count := r.access_count + 1, last_accessed := now } ∧
    ∀ j, j ≠ memory_id → (memoryGet db now memory_id).2 j = db j := by
  have hget : get_memory db memory_id = some r := by
    simp [get_memory, hdb, ht]
  refine ⟨by simp [memoryGet, hget], ?_, ?_⟩
  · simp [memoryGet, hget, increment_access, hdb]
  · intro j hj
    simp [memoryGet, hget, increment_access, hj]

/-- Witness for C10 on `sampleDB` and `sampleRec`. -/
theorem C10_get_not_pure_witness :
    (sampleDB "m1" = some sampleRec ∧ sampleRec.tombstone = false) ∧
    (memoryGet sampleDB 9 "m1").1 = some sampleRec :=
  ⟨⟨by simp [sampleDB], rfl⟩,
   (C10_get_not_pure sampleDB 9 "m1" sampleRec (by simp [sampleDB]) rfl).1⟩

/-! ## Claim C5 -/

/-- Claim C5: for every (existing memory, new content) pair, if the
language-model call fails or its output cannot be parsed as the expected
JSON, `resolve_conflict` returns (it does not raise) the COMPATIBLE
classification with confidence `0.5` and no merged content. -/
theorem C5_conflict_fallback (existing_memory new_content : String)
    (generate : String → Except Unit String)
    (parseJson : String → Option ConflictData)
    (hfail : generate (buildConflictPrompt existing_memory new_content) = Except.error () ∨
      ∃ response, generate (buildConflictPrompt existing_memory new_content) = Except.ok response ∧
        parseJson response.trim = none) :
    resolve_conflict existing_memory new_content generate parseJson =
      ⟨"COMPATIBLE", 0.5, none, "Failed to parse LLM response"⟩ := by
  rcases hfail with h | ⟨response, hok, hparse⟩
  · simp [resolve_conflict, h]
  · simp [resolve_conflict, hok, hparse]

/-- Witness for C5 with a language model whose call always fails. -/
theorem C5_conflict_fallback_witness :
    ((fun _ : String => (Except.error () : Except Unit String))
        (buildConflictPrompt "User lives in Paris" "User lives in Rome") = Except.error () ∨
      ∃ response, (fun _ : String => (Except.error () : Except Unit String))
          (buildConflictPrompt "User lives in Paris" "User lives in Rome") = Except.ok response ∧
        (fun _ : String => (none : Option ConflictData)) response.trim = none) ∧
    resolve_conflict "User lives in Paris" "User lives in Rome"
        (fun _ => Except.error ()) (fun _ => none) =
      ⟨"COMPATIBLE", 0.5, none, "Failed to parse LLM response"⟩ :=
  ⟨Or.inl rfl,
   C5_conflict_fallback "User lives in Paris" "User lives in Rome"
     (fun _ => Except.error ()) (fun _ => none) (Or.inl rfl)⟩

/-! ## Claim C6 -/

/-- Claim C6: for every list of at least two source memories, the fused
memory has strength `min(1, mean(source strengths) * boost_factor)` with
boost factor `1.2 > 1`, access count the sum of the source access counts
and tier `"lml"`; on sources with strengths `0.9, 0.5, 0.2` and access
counts `10, 2, 0` the fused strength is at least `0.533` and the fused
access count is `12`. -/
theorem C6_fusion (memories : List MemRecord) (llmConsolidated : Option String)
    (hlen : 2 ≤ memories.length) :
    ((fuse_memories memories llmConsolidated).strength =
      min 1 ((memories.map (fun m => m.strength)).sum / (memories.length : ℝ) * 1.2) ∧
     (1.2 : ℝ) > 1 ∧
     (fuse_memories memories llmConsolidated).access_count =
      (memories.map (fun m => m.access_count)).sum ∧
     (fuse_memories memories llmConsolidated).layer = "lml") ∧
    ((fuse_memories fuseSources none).strength ≥ 0.533 ∧
     (fuse_memories fuseSources none).access_count = 12) := by
  refine ⟨⟨rfl, by norm_num, rfl, rfl⟩, ?_, by simp [fuse_memories, fuseSources]⟩
  have hs : (fuse_memories fuseSources none).strength =
      min 1 ((0.9 + (0.5 + (0.2 + 0))) / 3 * 1.2) := by
    simp [fuse_memories, fuseSources, sampleRec]
  rw [hs]
  norm_num

/-- Witness for C6 on the three concrete sources. -/
theorem C6_fusion_witness :
    2 ≤ fuseSources.length ∧
    (fuse_memories fuseSources none).layer = "lml" :=
  ⟨by simp [fuseSources], (C6_fusion fuseSources none (by simp [fuseSources])).1.2.2.2⟩

/-! ## Claim C4 -/

/-- Claim C4: during `add`, when the nearest existing memory (similarity
at or above the conflict threshold) is classified SUBSUMED, no new record
is inserted: the existing memory's strength becomes
`min(1, old strength + 0.05)` (with `updated_at` stamped by
`update_memory`), its access count is incremented, every other record is
untouched, and the reported result carries the existing memory's id with
event `"NOOP"`. -/
theorem C4_subsumed_noop
    (cfg : FadeMemConfig) (echoEnabled : Bool) (depth : EchoDepth) (db : DB)
    (now : ℕ) (freshId : String) (user_id agent_id run_id app_id : Option String)
    (content : String) (nid : String) (score : ℝ) (ex : MemRecord)
    (resolution : ConflictResolution) (initial_layer : String) (initial_strength : ℝ)
    (bfm : BFMOut)
    (hok : build_filters_and_metadata user_id agent_id run_id none [] [] = Except.ok bfm)
    (hforget : cfg.enable_forgetting = true)
    (hscore : cfg.conflict_similarity_threshold ≤ score)
    (hex : get_memory db nid = some ex)
    (hclass : resolution.classification = "SUBSUMED") :
    ∃ db₂ res,
      addOne cfg echoEnabled depth db now freshId user_id agent_id run_id app_id
        content (some (nid, score)) resolution initial_layer initial_strength =
        Except.ok (db₂, res) ∧
      res.id = ex.id ∧ res.event = "NOOP" ∧
      res.strength = min 1 (ex.strength + 0.05) ∧
      db₂ ex.id = (db ex.id).map (fun r =>
        { r with strength := min 1 (ex.strength + 0.05), updated_at := now,
                 access_count := r.access_count + 1, last_accessed := now }) ∧
      (∀ j, j ≠ ex.id → db₂ j = db j) ∧
      (∀ j, (db₂ j).isSome = (db j).isSome) := by
  have key : addOne cfg echoEnabled depth db now freshId user_id agent_id run_id app_id
      content (some (nid, score)) resolution initial_layer initial_strength =
      Except.ok (increment_access (db_update_strength db now ex.id
          (min 1 (ex.strength + 0.05))) now ex.id,
        ⟨ex.id, ex.memory, "NOOP", ex.layer, min 1 (ex.strength + 0.05), none⟩) := by
    unfold addOne
    rw [hok]
    simp only [if_pos hscore, hex, hclass, hforget]
    simp
  refine ⟨_, _, key, rfl, rfl, rfl, ?_, ?_, ?_⟩
  · simp only [increment_access, db_update_strength, if_pos rfl, Option.map_map]
    rcases db ex.id with _ | r <;> rfl
  · intro j hj
    simp [increment_access, db_update_strength, hj]
  · intro j
    by_cases hj : j = ex.id
    · subst hj
      simp [increment_access, db_update_strength]
    · simp [increment_access, db_update_strength, hj]

/-- Witness for C4 on `sampleDB`: the SUBSUMED resolution boosts the
stored record instead of inserting. -/
theorem C4_subsumed_noop_witness :
    (build_filters_and_metadata (some "u1") none none none [] [] =
       Except.ok ⟨[("user_id", "u1")], [("user_id", "u1")]⟩ ∧
     defaultFadeMemConfig.enable_forgetting = true ∧
     defaultFadeMemConfig.conflict_similarity_threshold ≤ (0.9 : ℝ) ∧
     get_memory sampleDB "m1" = some sampleRec ∧
     subsumedRes.classification = "SUBSUMED") ∧
    ∃ db₂ res,
      addOne defaultFadeMemConfig true EchoDepth.medium sampleDB 9 "fresh"
        (some "u1") none none none "User prefers TS" (some ("m1", 0.9)) subsumedRes
        "auto" 1 = Except.ok (db₂, res) ∧
      res.id = sampleRec.id ∧ res.event = "NOOP" ∧
      res.strength = min 1 (sampleRec.strength + 0.05) ∧
      db₂ sampleRec.id = (sampleDB sampleRec.id).map (fun r =>
        { r with strength := min 1 (sampleRec.strength + 0.05), updated_at := 9,
                 access_count := r.access_count + 1, last_accessed := 9 }) ∧
      (∀ j, j ≠ sampleRec.id → db₂ j = sampleDB j) ∧
      (∀ j, (db₂ j).isSome = (sampleDB j).isSome) :=
  ⟨⟨by simp [build_filters_and_metadata, pyTruthy, dictSet, dictGet],
    rfl, by norm_num [defaultFadeMemConfig], by simp [get_memory, sampleDB, sampleRec], rfl⟩,
   C4_subsumed_noop defaultFadeMemConfig true EchoDepth.medium sampleDB 9 "fresh"
     (some "u1") none none none "User prefers TS" "m1" 0.9 sampleRec subsumedRes
     "auto" 1 ⟨[("user_id", "u1")], [("user_id", "u1")]⟩
     (by simp [build_filters_and_metadata, pyTruthy, dictSet, dictGet])
     rfl (by norm_num [defaultFadeMemConfig])
     (by simp [get_memory, sampleDB, sampleRec]) rfl⟩

/-! ## Claim C7 -/

/-- Counterexample for C7: providing only `app_id` (all of `user_id`,
`agent_id`, `run_id` absent) is not sufficient — `add` still raises the
validation error, because `build_filters_and_metadata` never consults
`app_id`. -/
theorem C7_counterexample :
    addOne defaultFadeMemConfig true EchoDepth.shallow emptyDB 0 "fresh"
        none none none (some "app1") "hello" none compatRes "auto" 1 =
      Except.error "VALIDATION_001" ∧
    build_filters_and_metadata none none none none [] [] =
      Except.error "VALIDATION_001" := by
  constructor
  · simp [addOne, build_filters_and_metadata, pyTruthy]
  · simp [build_filters_and_metadata, pyTruthy]

/-- Claim C7 as amended: when `user_id`, `agent_id` and `run_id` are all
absent (falsy), `add` fails with the validation error before touching any
collaborator — the outcome is the same for every store, vector hit and
resolver outcome, and no store is returned — regardless of `app_id`;
providing at least one of `user_id`/`agent_id`/`run_id` (but not `app_id`
alone, which is never consulted) passes the validation. -/
theorem C7_scope_validation (user_id agent_id run_id app_id : Option String)
    (cfg : FadeMemConfig) (echoEnabled : Bool) (depth : EchoDepth) (db : DB)
    (now : ℕ) (freshId : String) (content : String)
    (nearest : Option (String × ℝ)) (resolution : ConflictResolution)
    (initial_layer : String) (initial_strength : ℝ) :
    (pyTruthy user_id = false → pyTruthy agent_id = false → pyTruthy run_id = false →
      addOne cfg echoEnabled depth db now freshId user_id agent_id run_id app_id
        content nearest resolution initial_layer initial_strength =
        Except.error "VALIDATION_001") ∧
    ((pyTruthy user_id = true ∨ pyTruthy agent_id = true ∨ pyTruthy run_id = true) →
      ∃ out, build_filters_and_metadata user_id agent_id run_id none [] [] =
        Except.ok out) := by
  constructor
  · intro h1 h2 h3
    simp [addOne, build_filters_and_metadata, h1, h2, h3]
  · intro h
    by_cases hu : pyTruthy user_id <;> by_cases ha : pyTruthy agent_id <;>
      by_cases hr : pyTruthy run_id <;>
      simp_all [build_filters_and_metadata, dictGet, dictSet]

/-- Witness for C7 with all scope identifiers absent and an `app_id`
present. -/
theorem C7_scope_validation_witness :
    (pyTruthy none = false) ∧
    addOne defaultFadeMemConfig true EchoDepth.shallow emptyDB 0 "fresh"
        none none none (some "app2") "hi" none compatRes "auto" 1 =
      Except.error "VALIDATION_001" :=
  ⟨rfl,
   (C7_scope_validation none none none (some "app2") defaultFadeMemConfig true
      EchoDepth.shallow emptyDB 0 "fresh" "hi" none compatRes "auto" 1).1 rfl rfl rfl⟩

/-! ## Claim C1 -/

/-- Counterexample for C1: with the default `initial_strength = 1.0` and
medium echo depth, `add` persists strength `1 * 1.3 = 1.3 > 1` — the
depth multiplier is applied without any clamp before the record is
stored. -/
theorem C1_counterexample :
    persistedStrength
        (addOne defaultFadeMemConfig true EchoDepth.medium emptyDB 0 "fresh"
          (some "u1") none none none "I prefer Python" none compatRes "auto" 1)
        "fresh" = some 1.3 ∧
    ¬ ((1.3 : ℝ) ≤ 1) := by
  constructor
  · simp [addOne, build_filters_and_metadata, pyTruthy, dictSet, dictGet,
      persistedStrength, STRENGTH_MULTIPLIERS]
  · norm_num

/-- Claim C1 as amended: the strengths written by the conflict-resolution
boost, by re-echo, by fusion (from sources with strengths in `[0,1]`) and
by maintenance decay all lie in `[0,1]`; but the strength `add` persists
is `initial_strength * depth multiplier`, unclamped — it lies in `[0,1]`
only under the extra condition `initial_strength * multiplier ≤ 1`, which
the default `initial_strength = 1.0` violates at medium (`1.3`) and deep
(`1.6`) depth. -/
theorem C1_strength_bounds (s : ℝ) (hs0 : 0 ≤ s) (hs1 : s ≤ 1)
    (memories : List MemRecord)
    (hmem : ∀ m ∈ memories, 0 ≤ m.strength ∧ m.strength ≤ 1)
    (llmConsolidated : Option String)
    (current elapsed : ℝ) (n : ℕ) (layer : String) (config : FadeMemConfig)
    (initial_strength : ℝ) (depth : EchoDepth) (hinit : 0 ≤ initial_strength)
    (hmul : initial_strength * STRENGTH_MULTIPLIERS depth ≤ 1) :
    (0 ≤ subsumedBoost s ∧ subsumedBoost s ≤ 1) ∧
    (0 ≤ reechoStrength s ∧ reechoStrength s ≤ 1) ∧
    (0 ≤ (fuse_memories memories llmConsolidated).strength ∧
      (fuse_memories memories llmConsolidated).strength ≤ 1) ∧
    (0 ≤ calculate_decayed_strength current elapsed n layer config ∧
      calculate_decayed_strength current elapsed n layer config ≤ 1) ∧
    (0 ≤ addEffectiveStrength initial_strength true depth ∧
      addEffectiveStrength initial_strength true depth ≤ 1) := by
  refine ⟨⟨?_, ?_⟩, ⟨?_, ?_⟩, ⟨?_, ?_⟩, ⟨?_, ?_⟩, ⟨?_, ?_⟩⟩
  · exact le_min zero_le_one (by norm_num; linarith)
  · exact min_le_left _ _
  · exact le_min zero_le_one (by nlinarith)
  · exact min_le_left _ _
  · unfold fuse_memories
    apply le_min zero_le_one
    apply mul_nonneg _ (by norm_num)
    apply div_nonneg _ (Nat.cast_nonneg _)
    apply List.sum_nonneg
    intro x hx
    rcases List.mem_map.mp hx with ⟨m, hm, hxm⟩
    exact hxm ▸ (hmem m hm).1
  · exact min_le_left _ _
  · exact clamp01_nonneg _
  · exact clamp01_le_one _
  · unfold addEffectiveStrength
    have hmulnn : 0 ≤ STRENGTH_MULTIPLIERS depth := by
      cases depth <;> norm_num [STRENGTH_MULTIPLIERS]
    simpa using mul_nonneg hinit hmulnn
  · simpa [addEffectiveStrength] using hmul

/-- Witness for C1 as amended, at strength `1/2`, the three concrete
fusion sources, and shallow depth (multiplier `1.0`). -/
theorem C1_strength_bounds_witness :
    ((0:ℝ) ≤ (1/2:ℝ) ∧ (1/2:ℝ) ≤ 1 ∧
     (∀ m ∈ fuseSources, 0 ≤ m.strength ∧ m.strength ≤ 1) ∧
     (0:ℝ) ≤ (1:ℝ) ∧ (1:ℝ) * STRENGTH_MULTIPLIERS EchoDepth.shallow ≤ 1) ∧
    (0 ≤ subsumedBoost (1/2) ∧ subsumedBoost (1/2) ≤ 1) :=
  ⟨⟨by norm_num, by norm_num,
    by intro m hm; simp [fuseSources, sampleRec] at hm;
       rcases hm with h | h | h <;> subst h <;> norm_num,
    by norm_num, by norm_num [STRENGTH_MULTIPLIERS]⟩,
   (C1_strength_bounds (1/2) (by norm_num) (by norm_num) fuseSources
     (by intro m hm; simp [fuseSources, sampleRec] at hm;
         rcases hm with h | h | h <;> subst h <;> norm_num)
     none 1 1 0 "sml" defaultFadeMemConfig 1 EchoDepth.shallow (by norm_num)
     (by norm_num [STRENGTH_MULTIPLIERS])).1⟩

/-! ## Claim C8 -/

lemma updateChildren_stats (tid c : String) (st : CatStore) (j : String) :
    ((updateCat st tid (fun t => { t with children_ids := t.children_ids ++ [c] })) j).map
        (fun k => (k.memory_count, k.total_strength, k.access_count, k.keywords, k.summary)) =
      (st j).map
        (fun k => (k.memory_count, k.total_strength, k.access_count, k.keywords, k.summary)) := by
  unfold updateCat
  by_cases hj : j = tid
  · subst hj
    rcases st j with _ | k <;> simp
  · simp [hj]

lemma updateParent_stats (tid c : String) (st : CatStore) (j : String) :
    ((updateCat st c (fun k => { k with parent_id := some tid })) j).map
        (fun k => (k.memory_count, k.total_strength, k.access_count, k.keywords, k.summary)) =
      (st j).map
        (fun k => (k.memory_count, k.total_strength, k.access_count, k.keywords, k.summary)) := by
  unfold updateCat
  by_cases hj : j = c
  · subst hj
    rcases st j with _ | k <;> simp
  · simp [hj]

lemma updateChildren_parent (tid c : String) (st : CatStore) (j : String) :
    ((updateCat st tid (fun t => { t with children_ids := t.children_ids ++ [c] })) j).map
        (fun k => k.parent_id) =
      (st j).map (fun k => k.parent_id) := by
  unfold updateCat
  by_cases hj : j = tid
  · subst hj
    rcases st j with _ | k <;> simp
  · simp [hj]

lemma updateCat_isSome (f : Category → Category) (st : CatStore) (i j : String) :
    ((updateCat st i f) j).isSome = (st j).isSome := by
  unfold updateCat
  by_cases hj : j = i
  · subst hj
    rcases st j with _ | k <;> simp
  · simp [hj]

lemma updateCat_parent_after (tid : String) (st : CatStore) (c j : String)
    (h : ((st j).map (fun k => k.parent_id)) = some (some tid)) :
    (((updateCat st c (fun k => { k with parent_id := some tid })) j).map
      (fun k => k.parent_id)) = some (some tid) := by
  unfold updateCat
  by_cases hj : j = c
  · subst hj
    rcases hst : st j with _ | k
    · rw [hst] at h; simp at h
    · simp
  · simp only [hj, if_false]
    exact h

lemma reparentStep_stats (tid : String) (st : CatStore) (c j : String) :
    ((reparentStep tid st c) j).map
        (fun k => (k.memory_count, k.total_strength, k.access_count, k.keywords, k.summary)) =
      (st j).map
        (fun k => (k.memory_count, k.total_strength, k.access_count, k.keywords, k.summary)) := by
  unfold reparentStep
  by_cases h : (st c).isSome
  · rw [if_pos h, updateChildren_stats, updateParent_stats]
  · rw [if_neg h]

lemma reparentStep_someness (tid : String) (st : CatStore) (c j : String) :
    ((reparentStep tid st c) j).isSome = (st j).isSome := by
  unfold reparentStep
  by_cases h : (st c).isSome
  · rw [if_pos h, updateCat_isSome, updateCat_isSome]
  · rw [if_neg h]

lemma reparentStep_parent_keep (tid : String) (st : CatStore) (c j : String)
    (h : ((st j).map (fun k => k.parent_id)) = some (some tid)) :
    (((reparentStep tid st c) j).map (fun k => k.parent_id)) = some (some tid) := by
  unfold reparentStep
  by_cases hc : (st c).isSome
  · rw [if_pos hc, updateChildren_parent]
    exact updateCat_parent_after tid st c j h
  · rw [if_neg hc]
    exact h

lemma reparentStep_parent_self (tid : String) (st : CatStore) (c : String)
    (h : (st c).isSome) :
    (((reparentStep tid st c) c).map (fun k => k.parent_id)) = some (some tid) := by
  unfold reparentStep
  rw [if_pos h, updateChildren_parent]
  unfold updateCat
  rcases hst : st c with _ | k
  · rw [hst] at h; simp at h
  · simp

lemma reparentFold_stats (tid : String) (ch : List String) :
    ∀ (st : CatStore) (j : String),
    (((ch.foldl (reparentStep tid) st) j).map
        (fun k => (k.memory_count, k.total_strength, k.access_count, k.keywords, k.summary))) =
      ((st j).map
        (fun k => (k.memory_count, k.total_strength, k.access_count, k.keywords, k.summary))) := by
  induction ch with
  | nil => intro st j; rfl
  | cons c t ih =>
    intro st j
    rw [List.foldl_cons, ih, reparentStep_stats]

lemma reparentFold_someness (tid : String) (ch : List String) :
    ∀ (st : CatStore) (j : String),
    ((ch.foldl (reparentStep tid) st) j).isSome = (st j).isSome := by
  induction ch with
  | nil => intro st j; rfl
  | cons c t ih =>
    intro st j
    rw [List.foldl_cons, ih, reparentStep_someness]

lemma reparentFold_parent_keep (tid : String) (ch : List String) :
    ∀ (st : CatStore) (j : String),
    ((st j).map (fun k => k.parent_id)) = some (some tid) →
    (((ch.foldl (reparentStep tid) st) j).map (fun k => k.parent_id)) = some (some tid) := by
  induction ch with
  | nil => intro st j h; exact h
  | cons c t ih =>
    intro st j h
    rw [List.foldl_cons]
    exact ih _ j (reparentStep_parent_keep tid st c j h)

lemma reparentFold_parent_set (tid : String) (ch : List String) :
    ∀ (st : CatStore) (c : String), c ∈ ch → (st c).isSome →
    (((ch.foldl (reparentStep tid) st) c).map (fun k => k.parent_id)) = some (some tid) := by
  induction ch with
  | nil => intro st c hc; exact absurd hc (List.not_mem_nil c)
  | cons d t ih =>
    intro st c hc hsome
    rw [List.foldl_cons]
    rcases List.mem_cons.mp hc with hcd | hct
    · subst hcd
      exact reparentFold_parent_keep tid t _ c (reparentStep_parent_self tid st c hsome)
    · by_cases hcd : c = d
      · subst hcd
        exact reparentFold_parent_keep tid t _ c (reparentStep_parent_self tid st c hsome)
      · apply ih _ c hct
        rw [reparentStep_someness]
        exact hsome

lemma updateClearSummary_parent (i : String) (st : CatStore) (j : String) :
    ((updateCat st i clearSummaryFn) j).map (fun k => k.parent_id) =
      (st j).map (fun k => k.parent_id) := by
  unfold updateCat clearSummaryFn
  by_cases hj : j = i
  · subst hj
    rcases st j with _ | k <;> simp
  · simp [hj]

/-- Claim C8: merging a source category into a distinct target category
(both present) makes the target's member count, combined strength and
access count the sums of the prior values, leaves the target's keyword
list duplicate-free, re-parents every stored child of the source to the
target, and removes the source id from the active category set. -/
theorem C8_category_merge (st : CatStore) (source_id target_id : String)
    (source target : Category)
    (hs : st source_id = some source) (ht : st target_id = some target)
    (hne : source_id ≠ target_id) :
    ((mergeCategories st source_id target_id) target_id).map
        (fun k => (k.memory_count, k.total_strength, k.access_count)) =
      some (target.memory_count + source.memory_count,
            target.total_strength + source.total_strength,
            target.access_count + source.access_count) ∧
    (∀ k, (mergeCategories st source_id target_id) target_id = some k →
      k.keywords.Nodup) ∧
    (∀ c ∈ source.children_ids, c ≠ source_id → (st c).isSome →
      ((mergeCategories st source_id target_id) c).map (fun k => k.parent_id) =
        some (some target_id)) ∧
    (mergeCategories st source_id target_id) source_id = none := by
  have hbranch : mergeCategories st source_id target_id =
      fun j => if j = source_id then none
        else (updateCat ((source.children_ids).foldl (reparentStep target_id)
          (updateCat st target_id (mergeStatsFn source))) target_id clearSummaryFn) j := by
    unfold mergeCategories
    rw [hs, ht]
  set stM := updateCat st target_id (mergeStatsFn source) with hstM
  set stF := source.children_ids.foldl (reparentStep target_id) stM with hstF
  have hM : stM target_id = some (mergeStatsFn source target) := by
    rw [hstM]
    unfold updateCat
    rw [if_pos rfl, ht]
    rfl
  have hFstats : (stF target_id).map
      (fun k => (k.memory_count, k.total_strength, k.access_count, k.keywords, k.summary)) =
      some (target.memory_count + source.memory_count,
            target.total_strength + source.total_strength,
            target.access_count + source.access_count,
            (target.keywords ++ source.keywords).dedup, target.summary) := by
    rw [hstF, reparentFold_stats, hM]
    rfl
  obtain ⟨k2, hk2, hk2stats⟩ := Option.map_eq_some'.mp hFstats
  have hcomp : k2.memory_count = target.memory_count + source.memory_count ∧
      k2.total_strength = target.total_strength + source.total_strength ∧
      k2.access_count = target.access_count + source.access_count ∧
      k2.keywords = (target.keywords ++ source.keywords).dedup := by
    have h5 := hk2stats
    simp only [Prod.mk.injEq] at h5
    exact ⟨h5.1, h5.2.1, h5.2.2.1, h5.2.2.2.1⟩
  have hT : (mergeCategories st source_id target_id) target_id =
      some (clearSummaryFn k2) := by
    rw [hbranch]
    simp only [Ne.symm hne, if_false]
    unfold updateCat
    rw [if_pos rfl, hk2]
    rfl
  refine ⟨?_, ?_, ?_, ?_⟩
  · rw [hT]
    unfold clearSummaryFn
    simp only [Option.map_some', Option.some.injEq]
    rw [hcomp.1, hcomp.2.1, hcomp.2.2.1]
  · intro k hk
    rw [hT] at hk
    have hkk : k = clearSummaryFn k2 := by
      injection hk with h
      exact h.symm
    subst hkk
    unfold clearSummaryFn
    simp only
    rw [hcomp.2.2.2]
    exact List.nodup_dedup _
  · intro c hc hcs hcsome
    have hMsome : (stM c).isSome := by
      rw [hstM, updateCat_isSome]
      exact hcsome
    have hFparent : (stF c).map (fun k => k.parent_id) = some (some target_id) := by
      rw [hstF]
      exact reparentFold_parent_set target_id source.children_ids stM c hc hMsome
    have hCparent : ((updateCat stF target_id clearSummaryFn) c).map
        (fun k => k.parent_id) = some (some target_id) := by
      rw [updateClearSummary_parent]
      exact hFparent
    rw [hbranch]
    simp only [hcs, if_false]
    exact hCparent
  · rw [hbranch]
    simp

/-- Witness for C8: merging `srcCat` into `tgtCat` in `sampleCatStore`
removes the source. -/
theorem C8_category_merge_witness :
    (sampleCatStore "s" = some srcCat ∧ sampleCatStore "t" = some tgtCat ∧
      ("s" : String) ≠ "t") ∧
    (mergeCategories sampleCatStore "s" "t") "s" = none :=
  ⟨⟨by simp [sampleCatStore], by simp [sampleCatStore], by simp⟩,
   (C8_category_merge sampleCatStore "s" "t" srcCat tgtCat
      (by simp [sampleCatStore]) (by simp [sampleCatStore]) (by simp)).2.2.2⟩

/-! ## Claim C9 -/

lemma cosine_similarity_zero_of_empty (v w : List ℝ) (h : v = [] ∨ w = []) :
    cosine_similarity v w = 0 := by
  unfold cosine_similarity
  rcases h with h | h <;> simp [h]

lemma mergeStep_no_kw (weak : Category) (acc : Option Category × ℝ) (c : Category)
    (hkw : ¬ kwTriggers weak c) :
    (mergeStep weak acc c = acc ∧
      (mergeEligible weak c →
        cosine_similarity weak.embedding c.embedding > 0.7 →
        cosine_similarity weak.embedding c.embedding ≤ acc.2)) ∨
    (mergeEligible weak c ∧
      cosine_similarity weak.embedding c.embedding > acc.2 ∧
      cosine_similarity weak.embedding c.embedding > 0.7 ∧
      mergeStep weak acc c = (some c, cosine_similarity weak.embedding c.embedding)) := by
  unfold kwTriggers at hkw
  push_neg at hkw
  by_cases h1 : c.id = weak.id
  · left
    refine ⟨by simp [mergeStep, h1], ?_⟩
    intro helig
    exact absurd h1 helig.1
  by_cases h2 : c.category_type = CategoryType.dynamic ∧ c.strength < 0.5
  · left
    refine ⟨by simp [mergeStep, h1, h2], ?_⟩
    intro helig
    exact absurd h2 helig.2
  have helig : mergeEligible weak c := ⟨h1, h2⟩
  by_cases h4 : weak.embedding ≠ [] ∧ c.embedding ≠ []
  · by_cases h5 : cosine_similarity weak.embedding c.embedding > acc.2 ∧
        cosine_similarity weak.embedding c.embedding > 0.7
    · right
      refine ⟨helig, h5.1, h5.2, ?_⟩
      by_cases h3 : weak.keywords ≠ [] ∧ c.keywords ≠ []
      · have hov : ¬ (2 ≤ kwOverlap weak.keywords c.keywords) :=
          not_le.mpr (hkw h3.1 h3.2)
        simp [mergeStep, h1, h2, h3, h4, h5.1, h5.2, hov]
      · simp [mergeStep, h1, h2, h3, h4, h5.1, h5.2]
    · left
      have hbound : mergeEligible weak c →
          cosine_similarity weak.embedding c.embedding > 0.7 →
          cosine_similarity weak.embedding c.embedding ≤ acc.2 := by
        intro _ hgt
        by_contra hcon
        push_neg at hcon
        exact h5 ⟨hcon, hgt⟩
      refine ⟨?_, hbound⟩
      by_cases h3 : weak.keywords ≠ [] ∧ c.keywords ≠ []
      · have hov : ¬ (2 ≤ kwOverlap weak.keywords c.keywords) :=
          not_le.mpr (hkw h3.1 h3.2)
        simp [mergeStep, h1, h2, h3, h4, h5, hov]
      · simp [mergeStep, h1, h2, h3, h4, h5]
  · have hzero : cosine_similarity weak.embedding c.embedding = 0 := by
      apply cosine_similarity_zero_of_empty
      push_neg at h4
      by_cases hw : weak.embedding = []
      · exact Or.inl hw
      · exact Or.inr (h4 hw)
    left
    have hbound : mergeEligible weak c →
        cosine_similarity weak.embedding c.embedding > 0.7 →
        cosine_similarity weak.embedding c.embedding ≤ acc.2 := by
      intro _ hgt
      rw [hzero] at hgt
      linarith
    refine ⟨?_, hbound⟩
    by_cases h3 : weak.keywords ≠ [] ∧ c.keywords ≠ []
    · have hov : ¬ (2 ≤ kwOverlap weak.keywords c.keywords) :=
        not_le.mpr (hkw h3.1 h3.2)
      simp [mergeStep, h1, h2, h3, h4, hov]
    · simp [mergeStep, h1, h2, h3, h4]

lemma mergeScan_inv (weak : Category) (cats : List Category) :
    ∀ acc : Option Category × ℝ,
    (∀ c ∈ cats, ¬ kwTriggers weak c) →
    ((acc.1 = none ∧ acc.2 = 0) ∨
      (∃ b, acc.1 = some b ∧ mergeEligible weak b ∧
        cosine_similarity weak.embedding b.embedding > 0.7 ∧
        acc.2 = cosine_similarity weak.embedding b.embedding)) →
    (((cats.foldl (mergeStep weak) acc).1 = none ∧
        (cats.foldl (mergeStep weak) acc).2 = 0) ∨
      (∃ b, (cats.foldl (mergeStep weak) acc).1 = some b ∧ mergeEligible weak b ∧
        cosine_similarity weak.embedding b.embedding > 0.7 ∧
        (cats.foldl (mergeStep weak) acc).2 =
          cosine_similarity weak.embedding b.embedding)) ∧
    acc.2 ≤ (cats.foldl (mergeStep weak) acc).2 ∧
    (∀ d ∈ cats, mergeEligible weak d →
      cosine_similarity weak.embedding d.embedding > 0.7 →
      cosine_similarity weak.embedding d.embedding ≤
        (cats.foldl (mergeStep weak) acc).2) := by
  induction cats with
  | nil =>
    intro acc _ hacc
    exact ⟨hacc, le_refl _, by intro d hd; exact absurd hd (List.not_mem_nil d)⟩
  | cons c t ih =>
    intro acc hkw hacc
    have hkwc : ¬ kwTriggers weak c := hkw c (List.mem_cons_self c t)
    have hkwt : ∀ x ∈ t, ¬ kwTriggers weak x :=
      fun x hx => hkw x (List.mem_cons_of_mem c hx)
    rcases mergeStep_no_kw weak acc c hkwc with ⟨hstep, hboundc⟩ | ⟨helig, hgt, h07, hstep⟩
    · rw [List.foldl_cons, hstep]
      obtain ⟨hgood, hmono, hbound⟩ := ih acc hkwt hacc
      refine ⟨hgood, hmono, ?_⟩
      intro d hd heligd hsimd
      rcases List.mem_cons.mp hd with rfl | hdt
      · exact le_trans (hboundc heligd hsimd) hmono
      · exact hbound d hdt heligd hsimd
    · rw [List.foldl_cons, hstep]
      have hacc2 : (((some c, cosine_similarity weak.embedding c.embedding) :
            Option Category × ℝ).1 = none ∧
          ((some c, cosine_similarity weak.embedding c.embedding) :
            Option Category × ℝ).2 = 0) ∨
          (∃ b, ((some c, cosine_similarity weak.embedding c.embedding) :
              Option Category × ℝ).1 = some b ∧ mergeEligible weak b ∧
            cosine_similarity weak.embedding b.embedding > 0.7 ∧
            ((some c, cosine_similarity weak.embedding c.embedding) :
              Option Category × ℝ).2 = cosine_similarity weak.embedding b.embedding) :=
        Or.inr ⟨c, rfl, helig, h07, rfl⟩
      obtain ⟨hgood, hmono, hbound⟩ :=
        ih (some c, cosine_similarity weak.embedding c.embedding) hkwt hacc2
      refine ⟨hgood, le_trans (le_of_lt hgt) hmono, ?_⟩
      intro d hd heligd hsimd
      rcases List.mem_cons.mp hd with rfl | hdt
      · exact hmono
      · exact hbound d hdt heligd hsimd

/-- Claim C9 as amended: when no candidate fires the keyword-overlap
branch (fewer than two shared keywords throughout), the merge-target
search returns a candidate of maximal embedding similarity among the
eligible candidates passing the `> 0.7` test, provided one exists.  (The
unamended claim fails because a keyword-overlap candidate can override an
embedding-qualified best target whenever its overlap ratio exceeds the
best similarity — keyword overlap is not merely a fallback.) -/
theorem C9_merge_target_embedding (weak : Category) (cats : List Category)
    (hkw : ∀ c ∈ cats, ¬ kwTriggers weak c)
    (hex : ∃ c ∈ cats, mergeEligible weak c ∧
      cosine_similarity weak.embedding c.embedding > 0.7) :
    ∃ b, find_merge_target weak cats = some b ∧ mergeEligible weak b ∧
      cosine_similarity weak.embedding b.embedding > 0.7 ∧
      ∀ d ∈ cats, mergeEligible weak d →
        cosine_similarity weak.embedding d.embedding > 0.7 →
        cosine_similarity weak.embedding d.embedding ≤
          cosine_similarity weak.embedding b.embedding := by
  obtain ⟨c0, hc0mem, hc0elig, hc0sim⟩ := hex
  obtain ⟨hgood, hmono, hbound⟩ :=
    mergeScan_inv weak cats ((none : Option Category), (0 : ℝ)) hkw (Or.inl ⟨rfl, rfl⟩)
  have hc0le := hbound c0 hc0mem hc0elig hc0sim
  rcases hgood with ⟨hn, hz⟩ | ⟨b, hb, hbelig, hbsim, hbacc⟩
  · rw [hz] at hc0le
    linarith
  · refine ⟨b, ?_, hbelig, hbsim, ?_⟩
    · unfold find_merge_target
      exact hb
    · intro d hd heligd hsimd
      have hle := hbound d hd heligd hsimd
      rw [hbacc] at hle
      exact hle

lemma cosine_34_43 : cosine_similarity ([3, 4] : List ℝ) ([4, 3] : List ℝ) = 24 / 25 := by
  have hss1 : sumSquares ([3, 4] : List ℝ) = 25 := by norm_num [sumSquares]
  have hss2 : sumSquares ([4, 3] : List ℝ) = 25 := by norm_num [sumSquares]
  have h5 : Real.sqrt 25 = 5 := by
    rw [show (25 : ℝ) = 5 ^ 2 by norm_num]
    exact Real.sqrt_sq (by norm_num)
  have hdot : dotProduct ([3, 4] : List ℝ) ([4, 3] : List ℝ) = 24 := by
    norm_num [dotProduct]
  simp only [cosine_similarity, hss1, hss2, h5, hdot]
  norm_num
  exact ⟨List.cons_ne_nil _ _, List.cons_ne_nil _ _⟩

lemma kwOverlap_sample : kwOverlap weakCat.keywords kwCand.keywords = 2 := rfl

lemma mergeStep_sample1 :
    mergeStep weakCat ((none : Option Category), (0 : ℝ)) embCand =
      (some embCand, 24 / 25) := by
  norm_num [mergeStep, weakCat, embCand, cosine_34_43]
  split_ifs with h1 h2
  · exact absurd h1 (by decide)
  · rfl
  · simp at h2

lemma mergeStep_sample2 :
    mergeStep weakCat ((some embCand : Option Category), (24 / 25 : ℝ)) kwCand =
      (some kwCand, 24 / 25) := by
  have hid : ¬(kwCand.id = weakCat.id) := by decide
  have hskip : ¬(kwCand.category_type = CategoryType.dynamic ∧ kwCand.strength < 0.5) := by
    intro h
    have h2 := h.2
    norm_num [kwCand] at h2
  have hguard : ¬(weakCat.embedding ≠ [] ∧ kwCand.embedding ≠ []) := by
    intro h
    exact h.2 rfl
  have hkwg : weakCat.keywords ≠ [] ∧ kwCand.keywords ≠ [] :=
    ⟨by simp [weakCat], by simp [kwCand]⟩
  simp only [mergeStep]
  rw [if_neg hid, if_neg hskip]
  simp only [if_neg hguard]
  rw [if_pos hkwg, if_pos]
  constructor
  · rw [kwOverlap_sample]
  · refine Or.inr ?_
    rw [if_neg hguard, kwOverlap_sample]
    norm_num [weakCat]

/-- Counterexample for C9: `embCand` is eligible and embedding-similar to
`weakCat` with similarity `24/25 > 0.7`, yet the merge-target search
returns `kwCand`, whose embedding similarity is `0` — the keyword-overlap
branch overrides the embedding-qualified best target, so the most
embedding-similar passing candidate is not returned and keyword overlap is
not merely a fallback. -/
theorem C9_counterexample :
    find_merge_target weakCat [embCand, kwCand] = some kwCand ∧
    mergeEligible weakCat embCand ∧
    cosine_similarity weakCat.embedding embCand.embedding = 24 / 25 ∧
    ((24 : ℝ) / 25 > 0.7) ∧
    cosine_similarity weakCat.embedding kwCand.embedding = 0 := by
  refine ⟨?_, ⟨?_, ?_⟩, ?_, by norm_num, ?_⟩
  · unfold find_merge_target
    rw [show ([embCand, kwCand] : List Category).foldl (mergeStep weakCat)
          ((none : Option Category), (0 : ℝ)) = (some kwCand, 24 / 25) by
        rw [List.foldl_cons, mergeStep_sample1, List.foldl_cons, mergeStep_sample2,
          List.foldl_nil]]
  · simp [embCand, weakCat]
  · intro h
    exact absurd h.2 (by norm_num [embCand])
  · have h := cosine_34_43
    simp only [weakCat, embCand]
    exact h
  · apply cosine_similarity_zero_of_empty
    right
    simp [kwCand]

/-- Witness for C9 as amended: with only the embedding candidate present
no keyword branch can fire, and the embedding-similar candidate is
returned. -/
theorem C9_merge_target_embedding_witness :
    ((∀ c ∈ [embCand], ¬ kwTriggers weakCat c) ∧
     (∃ c ∈ [embCand], mergeEligible weakCat c ∧
        cosine_similarity weakCat.embedding c.embedding > 0.7)) ∧
    (∃ b, find_merge_target weakCat [embCand] = some b ∧ mergeEligible weakCat b ∧
      cosine_similarity weakCat.embedding b.embedding > 0.7 ∧
      ∀ d ∈ [embCand], mergeEligible weakCat d →
        cosine_similarity weakCat.embedding d.embedding > 0.7 →
        cosine_similarity weakCat.embedding d.embedding ≤
          cosine_similarity weakCat.embedding b.embedding) := by
  have hkw : ∀ c ∈ [embCand], ¬ kwTriggers weakCat c := by
    intro c hc
    simp only [List.mem_singleton] at hc
    subst hc
    simp [kwTriggers, embCand]
  have hex : ∃ c ∈ [embCand], mergeEligible weakCat c ∧
      cosine_similarity weakCat.embedding c.embedding > 0.7 := by
    refine ⟨embCand, by simp, ⟨?_, ?_⟩, ?_⟩
    · simp [embCand, weakCat]
    · intro h
      exact absurd h.2 (by norm_num [embCand])
    · have h := cosine_34_43
      simp only [weakCat, embCand]
      rw [h]
      norm_num
  exact ⟨⟨hkw, hex⟩, C9_merge_target_embedding weakCat [embCand] hkw hex⟩

end FadeMem
